import Mathlib

/-!
Verification of the a0-lang interpreter (github.com/Mstr0A/a0-lang).

This file gives a shallow embedding, in Lean 4, of the parts of the a0
interpreter that the specification's testable properties talk about:

* the lexer's handling of the two-character operator lexemes (frontend/lexer.go,
  in particular `lexOr`);
* the AST node model (frontend, ast definitions);
* the runtime value model (runtime/values.go);
* the environment chain with declaration, assignment and lookup
  (runtime, environment definitions);
* the tree-walking evaluator `Evaluate` with all of its statement and
  expression cases (runtime/interpreter.go and the eval* helpers).

Modelling conventions:

* Go's `float64` number payload is modelled as `ℚ` (exact arithmetic); none of
  the properties proved here depend on binary floating-point rounding, only on
  control flow around guards (zero tests, truncation to integer).
* Go's nillable interface values are modelled with `Option`: a `RuntimeVal`
  that may be the nil interface becomes `Option Value`, and the nil AST node
  becomes the dedicated constructor `Stmt.nilStmt` (the evaluator's default
  case handles it, exactly as Go's type switch falls through to `default` on a
  nil `f.Stmt`).
* A Go `map[string]RuntimeVal` is modelled as an association list with
  insert-or-replace update (`assocSet`); the evaluator only builds such lists
  through `assocSet`, so keys stay distinct just as in a Go map.
* Go panics (the evaluator panics on a non-identifier assignment target, the
  environment's `resolve` panics on an undeclared name, and the Go runtime
  panics on an integer division by zero in the `%` operator) are modelled by
  the `Res.panicked` outcome, distinct from a structured interpreter error
  `Res.err`.
* The evaluator is totalised with a fuel argument; `Res.timeout` marks fuel
  exhaustion and corresponds to no behaviour of the Go program (the Go code
  simply recurses).
* The only native function the interpreter installs is `print`
  (setupGlobalScope); its host I/O side effect is not modelled, only its
  return value `NadaVal{}`.
-/

namespace A0

/-! ## Token model (frontend/lexer.go)

The Go `Token` type is `int` with an iota-enumerated constant block; the
numeric values matter because `lexOr` compares a `Token` against the integer
literal `2`. -/

abbrev Token := Nat

namespace Tok

def EOF : Token := 0
def ILLEGAL : Token := 1
def IDENT : Token := 2
def RETURN : Token := 3
def INT : Token := 4
def FLOAT : Token := 5
def STRING : Token := 6
def CHAR : Token := 7
def VAR : Token := 8
def CONST : Token := 9
def OPENCURLY : Token := 10
def CLOSECURLY : Token := 11
def OPENPAREN : Token := 12
def CLOSEPAREN : Token := 13
def OPENBRACKET : Token := 14
def CLOSEBRACKET : Token := 15
def ADD : Token := 16
def SUB : Token := 17
def MUL : Token := 18
def DIV : Token := 19
def MOD : Token := 20
def NOT : Token := 21
def COLON : Token := 22
def COMMA : Token := 23
def DOT : Token := 24
def DE : Token := 25
def NE : Token := 26
def GT : Token := 27
def LT : Token := 28
def GTE : Token := 29
def LTE : Token := 30
def IF : Token := 31
def FOR : Token := 32
def WHILE : Token := 33
def FUN : Token := 34
def AND : Token := 35
def OR : Token := 36
def EQUALS : Token := 37

end Tok

/-! ## The lexer's `|` handler (frontend/lexer.go, lexOr)

The reader is modelled as a list of characters; `goBack` (UnreadRune) is
modelled by leaving the non-matching character on the remaining input.  The
loop accumulates `|` runes into the literal and counts them in `orCount`,
exactly as the Go loop does. -/

def lexOrLoop : List Char → String → Nat → (String × Nat × List Char)
  | [], lit, orCount => (lit, orCount, [])
  | c :: rest, lit, orCount =>
    if c = '|' then lexOrLoop rest (lit.push c) (orCount + 1)
    else (lit, orCount, c :: rest)

/-- Model of `lexOr`.  Note the faithful reproduction of the source's
comparison: the final classification tests `orType == 2` — the zero-valued
`Token` variable declared by `var orType Token` — rather than `orCount`. -/
def lexOr (input : List Char) : String × Token × List Char :=
  let scanned := lexOrLoop input "" 0
  -- var orType Token  (Go zero value: Token(0) = EOF)
  let orType : Token := Tok.EOF
  -- if orType == 2 { orType = OR } else { orType = ILLEGAL }
  let orType := if orType = 2 then Tok.OR else Tok.ILLEGAL
  (scanned.1, orType, scanned.2.2)

def lexAndLoop : List Char → String → Nat → (String × Nat × List Char)
  | [], lit, andCount => (lit, andCount, [])
  | c :: rest, lit, andCount =>
    if c = '&' then lexAndLoop rest (lit.push c) (andCount + 1)
    else (lit, andCount, c :: rest)

/-- Model of `lexAnd` for contrast: it correctly tests `andCount == 2`. -/
def lexAnd (input : List Char) : String × Token × List Char :=
  let scanned := lexAndLoop input "" 0
  let andType : Token := if scanned.2.1 = 2 then Tok.AND else Tok.ILLEGAL
  (scanned.1, andType, scanned.2.2)

/-! ## AST model (frontend ast definitions)

One inductive covers Go's `Stmt` interface (every expression is also a
statement).  Fields that the Go code nil-checks explicitly
(`VarDeclaration.Value`, `Property.Value`) are `Option Stmt`; the nil interface
value that `parseReturnStmt` stores for a bare `return` is the constructor
`nilStmt`, which the evaluator's default case rejects. -/

inductive Stmt where
  | program (body : List Stmt)
  | varDecl (constant : Bool) (identifier : String) (value : Option Stmt)
  | funcDecl (name : String) (parameters : List String) (body : List Stmt)
  | ifS (condition : Stmt) (body : List Stmt)
  | whileS (condition : Stmt) (body : List Stmt)
  | forS (condition : Stmt) (body : List Stmt)
  | returnS (value : Stmt)
  | assign (assignee : Stmt) (value : Stmt)
  | call (args : List Stmt) (caller : Stmt)
  | member (object : Stmt) (property : Stmt) (computed : Bool)
  | logical (left : Stmt) (right : Stmt) (operator : String)
  | binary (left : Stmt) (right : Stmt) (operator : String)
  | unary (operant : Stmt) (operator : String)
  | numberLit (value : ℚ)
  | stringLit (value : String)
  | ident (symbol : String)
  | objectLit (properties : List (String × Option Stmt))
  | nilStmt

/-! ## Runtime value model (runtime/values.go)

`ObjectVal.Properties` is `map[string]RuntimeVal` and the stored values can be
the nil interface (a shorthand property whose lookup produced nil), hence
`Option Value` entries.  `ReturnValue.Value` is likewise nillable. -/

inductive Value where
  | number (val : ℚ)
  | str (val : String)
  | nada
  | bool (val : Bool)
  | object (properties : List (String × Option Value)) (objectName : String)
  | native (name : String)
  | user (name : String) (parameters : List String) (declarationEnv : Nat)
         (body : List Stmt)
  | ret (value : Option Value)

/-! ## Environment model (runtime environment definitions)

Go environments are heap objects linked by parent pointers; the model is a
store (list) of frames addressed by index, with `parent` an optional index.
`NewEnvironment` appends a frame, so a parent index always points below the
frame that references it. -/

structure Frame where
  parent : Option Nat
  vars : List (String × Option Value)
  constants : List String

abbrev Store := List Frame

def assocGet {α : Type} : List (String × α) → String → Option α
  | [], _ => none
  | (k, v) :: rest, name => if k = name then some v else assocGet rest name

def assocSet {α : Type} : List (String × α) → String → α → List (String × α)
  | [], name, v => [(name, v)]
  | (k, w) :: rest, name, v =>
    if k = name then (name, v) :: rest else (k, w) :: assocSet rest name v

def emptyFrame (parent : Option Nat) : Frame :=
  { parent := parent, vars := [], constants := [] }

/-- Model of `setupGlobalScope`: the root environment is seeded with the
constants `nada`, `true`, `false` and the native function `print`. -/
def globalFrame : Frame :=
  { parent := none
    vars := [("nada", some Value.nada),
             ("true", some (Value.bool true)),
             ("false", some (Value.bool false)),
             ("print", some (Value.native "print"))]
    constants := ["nada", "true", "false", "print"] }

/-- Model of `NewEnvironment`: appends a fresh frame (seeded as the global
scope when it has no parent) and returns its index together with the new
store. -/
def NewEnvironment (parent : Option Nat) (s : Store) : Nat × Store :=
  match parent with
  | none => (s.length, s ++ [globalFrame])
  | some _ => (s.length, s ++ [emptyFrame parent])

def frameAt (s : Store) (id : Nat) : Frame :=
  (s.get? id).getD (emptyFrame none)

def setVar (s : Store) (id : Nat) (name : String) (v : Option Value) : Store :=
  s.set id { frameAt s id with vars := assocSet (frameAt s id).vars name v }

/-- Model of `resolve`.  Go's `resolve` walks parent pointers and panics when
the chain runs out without finding the name; `Except.error` carries that panic
message.  The `gas` argument only bounds the pointer chase (frames built by
`NewEnvironment` always point strictly downward, so `s.length + 1` gas never
runs out on evaluator-built stores). -/
def resolveGas (s : Store) (name : String) : Nat → Nat → Except String Nat
  | 0, _ => Except.error ("Variable " ++ name ++ " does not exist")
  | gas + 1, id =>
    if (assocGet (frameAt s id).vars name).isSome then Except.ok id
    else
      match (frameAt s id).parent with
      | none => Except.error ("Variable " ++ name ++ " does not exist")
      | some p => resolveGas s name gas p

def resolve (s : Store) (id : Nat) (name : String) : Except String Nat :=
  resolveGas s name (s.length + 1) id

/-! ## Evaluation outcomes

Go's evaluator functions return `(RuntimeVal, error)`; a successful value may
be the nil interface (`Option Value`).  `panicked` models a Go panic and
`timeout` models fuel exhaustion of the totalised evaluator. -/

inductive Res where
  | ok (value : Option Value) (store : Store)
  | err (message : String) (store : Store)
  | panicked (message : String)
  | timeout

inductive ArgsRes where
  | ok (vals : List (Option Value)) (store : Store)
  | err (message : String) (store : Store)
  | panicked (message : String)
  | timeout

/-- Model of `Environment.DeclareVar`. -/
def DeclareVar (s : Store) (id : Nat) (varName : String) (value : Option Value)
    (constant : Bool) : Res :=
  if (assocGet (frameAt s id).vars varName).isSome then
    Res.err ("Variable " ++ varName ++ " already defined, cannot redeclare") s
  else
    let s1 := setVar s id varName value
    let s2 :=
      if constant then
        s1.set id { frameAt s1 id with
                      constants := (frameAt s1 id).constants ++ [varName] }
      else s1
    Res.ok value s2

/-- Model of `Environment.AssignVal`.  A missing name makes `resolve` panic. -/
def AssignVal (s : Store) (id : Nat) (varName : String) (value : Option Value) :
    Res :=
  match resolve s id varName with
  | Except.error msg => Res.panicked msg
  | Except.ok rid =>
    if (frameAt s rid).constants.contains varName then
      Res.err ("Cannot assign to constant variable: " ++ varName) s
    else Res.ok value (setVar s rid varName value)

/-- Model of `Environment.LookupVar`.  After `resolve` succeeds the Go code
reads the map directly; a miss there would yield the nil interface, hence the
`Option.join`-like flattening. -/
def LookupVar (s : Store) (id : Nat) (varName : String) : Res :=
  match resolve s id varName with
  | Except.error msg => Res.panicked msg
  | Except.ok rid =>
    match assocGet (frameAt s rid).vars varName with
    | some v => Res.ok v s
    | none => Res.ok none s

/-! ## Pure value predicates (runtime expression evaluation helpers) -/

/-- Model of `isTruthy`.  The Go switch tries `BoolVal`, `NumberVal`,
`NadaVal`, and `default` returns `val != nil`. -/
def isTruthy : Option Value → Bool
  | some (Value.bool b) => b
  | some (Value.number q) => decide (q ≠ 0)
  | some Value.nada => false
  | some _ => true
  | none => false

mutual

/-- Model of `deepEqual` together with the loop inside `objectsEqual`.
`deepEqual` first handles nil operands, then type-switches on `NumberVal`,
`BoolVal`, `NadaVal` and `ObjectVal`; every other tag — including `StringVal`,
`UserFunctionValue`, `NativeFunctionValue` and `ReturnValue` — falls through to
`false`.  The object case is `objectsEqual`: a length check and a per-key
comparison of map entries (`propsMatch`). -/
def deepEqual : Option Value → Option Value → Bool
  | none, none => true
  | none, some _ => false
  | some _, none => false
  | some a, some b =>
    match a, b with
    | Value.number x, Value.number y => x == y
    | Value.bool x, Value.bool y => x == y
    | Value.nada, Value.nada => true
    | Value.object pa _, Value.object pb _ =>
      pa.length == pb.length && propsMatch pa pb
    | _, _ => false

def propsMatch : List (String × Option Value) → List (String × Option Value) → Bool
  | [], _ => true
  | (key, valA) :: rest, b =>
    match assocGet b key with
    | none => false
    | some valB => deepEqual valA valB && propsMatch rest b

end

/-- Model of `objectsEqual` as a standalone function (its loop body is
`propsMatch`). -/
def objectsEqual (a b : List (String × Option Value)) : Bool :=
  a.length == b.length && propsMatch a b

def lessThan : Option Value → Option Value → Bool
  | some (Value.number x), some (Value.number y) => decide (x < y)
  | _, _ => false

def lessEqual : Option Value → Option Value → Bool
  | some (Value.number x), some (Value.number y) => decide (x ≤ y)
  | _, _ => false

def greaterThan : Option Value → Option Value → Bool
  | some (Value.number x), some (Value.number y) => decide (x > y)
  | _, _ => false

def greaterEqual : Option Value → Option Value → Bool
  | some (Value.number x), some (Value.number y) => decide (x ≥ y)
  | _, _ => false

/-! ## Numeric operators (evalNumericBinaryExpr / evalNumericUnaryExpr) -/

/-- Go's `int(x)` conversion of a float truncates toward zero; for an exact
rational `num/den` that is `Int.tdiv num den`. -/
def trunc (q : ℚ) : Int := Int.tdiv q.num (q.den : Int)

inductive NumRes where
  | ok (result : ℚ)
  | err (message : String)
  | panicked (message : String)

/-- Model of `evalNumericBinaryExpr`.  Division tests the divisor against zero
and yields `0` in that case; the `%` branch converts both sides with `int(...)`
and computes `leftInt % rightInt` with no zero test of its own, so a zero
divisor hits the Go runtime's integer-divide-by-zero panic (the `panicked`
branch below is the Go runtime check, not a guard present in the source). -/
def evalNumericBinaryExpr (leftSide rightSide : ℚ) (operator : String) : NumRes :=
  match operator with
  | "+" => NumRes.ok (leftSide + rightSide)
  | "-" => NumRes.ok (leftSide - rightSide)
  | "*" => NumRes.ok (leftSide * rightSide)
  | "/" =>
    if rightSide = 0 then NumRes.ok 0
    else NumRes.ok (leftSide / rightSide)
  | "%" =>
    let leftInt := trunc leftSide
    let rightInt := trunc rightSide
    if rightInt = 0 then NumRes.panicked "runtime error: integer divide by zero"
    else NumRes.ok ((Int.tmod leftInt rightInt : Int) : ℚ)
  | _ => NumRes.err ("Unknown operator " ++ operator)

/-- Model of `evalNumericUnaryExpr`.  The local `result` is declared with
`var result float64` (zero value) and the `!` branch compares that still-zero
local — not the operand — against zero; the unrecognised-operator default
returns the operand unchanged. -/
def evalNumericUnaryExpr (operant : ℚ) (operator : String) : Value :=
  let result : ℚ := 0
  match operator with
  | "-" => Value.number (-operant)
  | "!" => Value.number (if result = 0 then 1 else 0)
  | _ => Value.number operant

/-! ## Evaluator (runtime/interpreter.go and the eval* helpers)

The recursive knot is tied through a fuel parameter in `Evaluate`; every
helper below takes the one-step evaluator `ev` (which `Evaluate` instantiates
with itself at one unit less fuel) as an explicit argument, so each helper is
a plain structurally-recursive definition mirroring one Go function. -/

/-- Shape of the callback the helpers receive: node, environment id, store. -/
abbrev EvalFn := Stmt → Nat → Store → Res

/-- Statement-list loop shared by `evalProgram`, `evalIfStmt`, `evalWhileStmt`
and `evalForStmt`: run the statements in order, tracking `lastEvaluated`, and
short-circuit on error. -/
def seqEval (ev : EvalFn) (envId : Nat) :
    List Stmt → Option Value → Store → Res
  | [], lastEvaluated, s => Res.ok lastEvaluated s
  | stmt :: rest, _, s =>
    match ev stmt envId s with
    | Res.ok v s1 => seqEval ev envId rest v s1
    | other => other

/-- Model of `evalProgram`: `lastEvaluated` starts as the nil interface and is
returned unchanged (still nil) for an empty body; no `ReturnValue` check is
performed. -/
def evalProgram (ev : EvalFn) (envId : Nat) (body : List Stmt) (s : Store) :
    Res :=
  seqEval ev envId body none s

/-- Model of `evalVarDeclaration`. -/
def evalVarDeclaration (ev : EvalFn) (envId : Nat) (constant : Bool)
    (identifier : String) (value : Option Stmt) (s : Store) : Res :=
  match value with
  | none => DeclareVar s envId identifier (some Value.nada) constant
  | some valueExpr =>
    match ev valueExpr envId s with
    | Res.ok evaluatedValue s1 =>
      DeclareVar s1 envId identifier evaluatedValue constant
    | other => other

/-- Model of `evalFunctionDeclaration`: the function value captures the
current environment and is declared constant under its own name. -/
def evalFunctionDeclaration (envId : Nat) (name : String)
    (parameters : List String) (body : List Stmt) (s : Store) : Res :=
  DeclareVar s envId name (some (Value.user name parameters envId body)) true

/-- Model of `evalIdentifier`. -/
def evalIdentifier (envId : Nat) (symbol : String) (s : Store) : Res :=
  LookupVar s envId symbol

/-- Model of `evalLogicalExpr`: both sides are always evaluated, then the
operator string is dispatched. -/
def evalLogicalExpr (ev : EvalFn) (envId : Nat) (left right : Stmt)
    (operator : String) (s : Store) : Res :=
  match ev left envId s with
  | Res.ok leftSide s1 =>
    match ev right envId s1 with
    | Res.ok rightSide s2 =>
      match operator with
      | "and" => Res.ok (some (Value.bool (isTruthy leftSide && isTruthy rightSide))) s2
      | "or" => Res.ok (some (Value.bool (isTruthy leftSide || isTruthy rightSide))) s2
      | "not" => Res.ok (some (Value.bool (!isTruthy leftSide))) s2
      | "==" => Res.ok (some (Value.bool (deepEqual leftSide rightSide))) s2
      | "!=" => Res.ok (some (Value.bool (!deepEqual leftSide rightSide))) s2
      | "<" => Res.ok (some (Value.bool (lessThan leftSide rightSide))) s2
      | "<=" => Res.ok (some (Value.bool (lessEqual leftSide rightSide))) s2
      | ">" => Res.ok (some (Value.bool (greaterThan leftSide rightSide))) s2
      | ">=" => Res.ok (some (Value.bool (greaterEqual leftSide rightSide))) s2
      | _ => Res.err ("unknown logical operator: " ++ operator) s2
    | other => other
  | other => other

/-- Model of `evalBinaryExpr`: evaluate both operands; apply the numeric
operator when both are numbers, otherwise the result is `NadaVal{}`. -/
def evalBinaryExpr (ev : EvalFn) (envId : Nat) (left right : Stmt)
    (operator : String) (s : Store) : Res :=
  match ev left envId s with
  | Res.ok leftSide s1 =>
    match ev right envId s1 with
    | Res.ok rightSide s2 =>
      match leftSide, rightSide with
      | some (Value.number leftNum), some (Value.number rightNum) =>
        match evalNumericBinaryExpr leftNum rightNum operator with
        | NumRes.ok result => Res.ok (some (Value.number result)) s2
        | NumRes.err msg => Res.err msg s2
        | NumRes.panicked msg => Res.panicked msg
      | _, _ => Res.ok (some Value.nada) s2
    | other => other
  | other => other

/-- Model of `evalUnaryExpr`. -/
def evalUnaryExpr (ev : EvalFn) (envId : Nat) (operant : Stmt)
    (operator : String) (s : Store) : Res :=
  match ev operant envId s with
  | Res.ok operantVal s1 =>
    match operantVal with
    | some (Value.number operantNum) =>
      Res.ok (some (evalNumericUnaryExpr operantNum operator)) s1
    | _ => Res.ok (some Value.nada) s1
  | other => other

/-- Object-literal property loop of `evalObjectExpr`: a shorthand property
(value absent) looks the key up as a variable; duplicate keys overwrite
(map-update) earlier ones. -/
def evalObjectProps (ev : EvalFn) (envId : Nat) :
    List (String × Option Stmt) → List (String × Option Value) → Store → Res
  | [], acc, s => Res.ok (some (Value.object acc "")) s
  | (key, valueExpr) :: rest, acc, s =>
    match valueExpr with
    | none =>
      match LookupVar s envId key with
      | Res.ok runtimeVal s1 =>
        evalObjectProps ev envId rest (assocSet acc key runtimeVal) s1
      | other => other
    | some e =>
      match ev e envId s with
      | Res.ok runtimeVal s1 =>
        evalObjectProps ev envId rest (assocSet acc key runtimeVal) s1
      | other => other

/-- Model of `evalObjectExpr`. -/
def evalObjectExpr (ev : EvalFn) (envId : Nat)
    (properties : List (String × Option Stmt)) (s : Store) : Res :=
  evalObjectProps ev envId properties [] s

/-- Decimal rendering used for a computed member key produced by a `Number`
(Go uses `strconv.FormatFloat(v, 'f', -1, 64)`; the exact float rendering is
not modelled, only that a number key is deterministically stringified). -/
def numberKey (q : ℚ) : String := toString q

/-- Model of `evalMemberExpr`.  (The `%v` renderings that Go interpolates into
the error messages are not modelled; the messages keep their fixed prefixes.) -/
def evalMemberExpr (ev : EvalFn) (envId : Nat) (object property : Stmt)
    (computed : Bool) (s : Store) : Res :=
  match ev object envId s with
  | Res.ok objVal s1 =>
    match objVal with
    | some (Value.object props _) =>
      match computed with
      | true =>
        match ev property envId s1 with
        | Res.ok propVal s2 =>
          match propVal with
          | some (Value.str key) =>
            match assocGet props key with
            | some v => Res.ok v s2
            | none => Res.ok (some Value.nada) s2
          | some (Value.number q) =>
            match assocGet props (numberKey q) with
            | some v => Res.ok v s2
            | none => Res.ok (some Value.nada) s2
          | _ => Res.err "Invalid computed property key type" s2
        | other => other
      | false =>
        match property with
        | Stmt.ident key =>
          match assocGet props key with
          | some v => Res.ok v s1
          | none => Res.ok (some Value.nada) s1
        | _ => Res.err "Expected Identifier for non-computed property" s1
    | _ => Res.err "Attempted to access property of non-object value" s1
  | other => other

/-- Model of `evalAssignmentExpr`: a non-identifier target makes the Go code
panic (before the right-hand side is evaluated). -/
def evalAssignmentExpr (ev : EvalFn) (envId : Nat) (assignee value : Stmt)
    (s : Store) : Res :=
  match assignee with
  | Stmt.ident assigneeName =>
    match ev value envId s with
    | Res.ok assigneeValue s1 => AssignVal s1 envId assigneeName assigneeValue
    | other => other
  | _ => Res.panicked "Invalid left side of assignemt"

/-- Argument loop of `evalCallExpr`: the arguments are evaluated left to
right, before anything else. -/
def argsEval (ev : EvalFn) (envId : Nat) :
    List Stmt → Store → ArgsRes
  | [], s => ArgsRes.ok [] s
  | arg :: rest, s =>
    match ev arg envId s with
    | Res.ok v s1 =>
      match argsEval ev envId rest s1 with
      | ArgsRes.ok vs s2 => ArgsRes.ok (v :: vs) s2
      | other => other
    | Res.err m s1 => ArgsRes.err m s1
    | Res.panicked m => ArgsRes.panicked m
    | Res.timeout => ArgsRes.timeout

/-- Parameter-binding loop of the `UserFunctionValue` branch: the error result
of `DeclareVar` is discarded by the Go code, so a duplicate parameter name
silently keeps its first binding. -/
def declareParams (scopeId : Nat) :
    List String → List (Option Value) → Store → Store
  | [], _, s => s
  | _, [], s => s
  | varName :: restNames, arg :: restArgs, s =>
    match DeclareVar s scopeId varName arg false with
    | Res.ok _ s1 => declareParams scopeId restNames restArgs s1
    | _ => declareParams scopeId restNames restArgs s

/-- Body loop of the `UserFunctionValue` branch: each statement result is
checked for a `ReturnValue`, whose payload is returned immediately; a body
that completes without returning yields `NadaVal{}`. -/
def callBodySeq (ev : EvalFn) (scopeId : Nat) :
    List Stmt → Store → Res
  | [], s => Res.ok (some Value.nada) s
  | stmt :: rest, s =>
    match ev stmt scopeId s with
    | Res.ok result s1 =>
      match result with
      | some (Value.ret rv) => Res.ok rv s1
      | _ => callBodySeq ev scopeId rest s1
    | other => other

/-- Model of the native `print` call: it writes its arguments to standard
output (not modelled) and returns `NadaVal{}`; it never errors. -/
def callNative (name : String) (args : List (Option Value)) (s : Store) :
    Option Value × Store :=
  match name, args with
  | _, _ => (some Value.nada, s)

/-- Model of `evalCallExpr`.  The source evaluates the argument list first and
only then the callee; the `UserFunctionValue` branch creates the call scope
before the arity check. -/
def evalCallExpr (ev : EvalFn) (envId : Nat) (args : List Stmt)
    (caller : Stmt) (s : Store) : Res :=
  match argsEval ev envId args s with
  | ArgsRes.ok argVals s1 =>
    match ev caller envId s1 with
    | Res.ok fn s2 =>
      match fn with
      | some (Value.native name) =>
        let rs := callNative name argVals s2
        Res.ok rs.1 rs.2
      | some (Value.user name parameters declarationEnv body) =>
        let scope := NewEnvironment (some declarationEnv) s2
        if parameters.length ≠ argVals.length then
          Res.err ("Args do not match amount of parameters in function call for: "
            ++ name) scope.2
        else
          callBodySeq ev scope.1 body
            (declareParams scope.1 parameters argVals scope.2)
      | _ => Res.err "Cannot call value that is not a function" s2
    | other => other
  | ArgsRes.err m s1 => Res.err m s1
  | ArgsRes.panicked m => Res.panicked m
  | ArgsRes.timeout => Res.timeout

/-- Model of `evalIfStmt`: the condition must be a `BoolVal`; a true condition
runs the body (with `lastEvaluated` seeded to `NadaVal{}`), a false one yields
`NadaVal{}`. -/
def evalIfStmt (ev : EvalFn) (envId : Nat) (condition : Stmt)
    (body : List Stmt) (s : Store) : Res :=
  match ev condition envId s with
  | Res.ok condVal s1 =>
    match condVal with
    | some (Value.bool b) =>
      if b then seqEval ev envId body (some Value.nada) s1
      else Res.ok (some Value.nada) s1
    | _ => Res.err "If statement condition must be a boolean" s1
  | other => other

/-- Model of `evalWhileStmt`: `result` is initialised to `NadaVal{}` once and
threaded through the iterations; the `gas` argument only totalises the
unbounded Go loop. -/
def evalWhileStmt (ev : EvalFn) (envId : Nat) (condition : Stmt)
    (body : List Stmt) : Nat → Option Value → Store → Res
  | 0, _, _ => Res.timeout
  | gas + 1, result, s =>
    match ev condition envId s with
    | Res.ok condVal s1 =>
      match condVal with
      | some (Value.bool b) =>
        if b then
          match seqEval ev envId body result s1 with
          | Res.ok r s2 => evalWhileStmt ev envId condition body gas r s2
          | other => other
        else Res.ok result s1
      | _ => Res.err "While loop condition must be a boolean" s1
    | other => other

/-- Iteration loop of `evalForStmt`: Go's `for i := 0; i < int(n); i++` runs
the body `int(n)` times when that conversion is positive and zero times
otherwise; `lastEvaluated` threads through the iterations starting from the
nil interface. -/
def loopForTimes (ev : EvalFn) (envId : Nat) (body : List Stmt) :
    Nat → Option Value → Store → Res
  | 0, lastEvaluated, s => Res.ok lastEvaluated s
  | k + 1, lastEvaluated, s =>
    match seqEval ev envId body lastEvaluated s with
    | Res.ok v s1 => loopForTimes ev envId body k v s1
    | other => other

/-- Model of `evalForStmt`: the count expression must evaluate to a
`NumberVal`; the body runs in the enclosing environment (no new scope). -/
def evalForStmt (ev : EvalFn) (envId : Nat) (condition : Stmt)
    (body : List Stmt) (s : Store) : Res :=
  match ev condition envId s with
  | Res.ok countVal s1 =>
    match countVal with
    | some (Value.number numVal) =>
      loopForTimes ev envId body (trunc numVal).toNat none s1
    | _ => Res.err "For loop count must evaluate to a number" s1
  | other => other

/-- Model of `evalReturnStmt`: the value expression is evaluated through
`Evaluate` with no nil check, and the result is wrapped in a `ReturnValue`. -/
def evalReturnStmt (ev : EvalFn) (envId : Nat) (value : Stmt) (s : Store) :
    Res :=
  match ev value envId s with
  | Res.ok val s1 => Res.ok (some (Value.ret val)) s1
  | other => other

/-- Model of `Evaluate` (runtime/interpreter.go): the type switch over the AST
node.  The nil interface node falls into the `default` case with the
"has not been added for interpretation" error, `%v` rendering `<nil>`.  The
fuel argument totalises the recursion. -/
def Evaluate : Nat → Stmt → Nat → Store → Res
  | 0, _, _, _ => Res.timeout
  | fuel + 1, node, envId, s =>
    let ev : EvalFn := fun n e st => Evaluate fuel n e st
    match node with
    | Stmt.program body => evalProgram ev envId body s
    | Stmt.numberLit value => Res.ok (some (Value.number value)) s
    | Stmt.stringLit value => Res.ok (some (Value.str value)) s
    | Stmt.ident symbol => evalIdentifier envId symbol s
    | Stmt.objectLit properties => evalObjectExpr ev envId properties s
    | Stmt.member object property computed =>
      evalMemberExpr ev envId object property computed s
    | Stmt.binary left right operator =>
      evalBinaryExpr ev envId left right operator s
    | Stmt.unary operant operator => evalUnaryExpr ev envId operant operator s
    | Stmt.varDecl constant identifier value =>
      evalVarDeclaration ev envId constant identifier value s
    | Stmt.funcDecl name parameters body =>
      evalFunctionDeclaration envId name parameters body s
    | Stmt.assign assignee value => evalAssignmentExpr ev envId assignee value s
    | Stmt.call args caller => evalCallExpr ev envId args caller s
    | Stmt.logical left right operator =>
      evalLogicalExpr ev envId left right operator s
    | Stmt.ifS condition body => evalIfStmt ev envId condition body s
    | Stmt.whileS condition body =>
      evalWhileStmt ev envId condition body (fuel + 1) (some Value.nada) s
    | Stmt.forS condition body => evalForStmt ev envId condition body s
    | Stmt.returnS value => evalReturnStmt ev envId value s
    | Stmt.nilStmt =>
      Res.err "AST Node has not been added for interpretation: <nil>" s

/-- The store the CLI driver starts evaluation with:
`env := r.NewEnvironment(nil)` (main.go). -/
def store0 : Store := (NewEnvironment none []).2

/-! ## Auxiliary definitions used to state the properties -/

/-- Distinctness of the keys of an association list, as a Go map guarantees
for its keys. -/
def keysNodup : List (String × Option Value) → Bool
  | [] => true
  | (k, _) :: rest => !(assocGet rest k).isSome && keysNodup rest

mutual

/-- The class of values on which `deepEqual` can be reflexive: those built
from the `Number`, `Bool`, `Nada` and `Object` variants only (with map-shaped
property lists), since `deepEqual` has no case for the other tags. -/
def selfEqOK : Value → Bool
  | Value.number _ => true
  | Value.bool _ => true
  | Value.nada => true
  | Value.object props _ => keysNodup props && propsOK props
  | _ => false

def propsOK : List (String × Option Value) → Bool
  | [] => true
  | (_, none) :: rest => propsOK rest
  | (_, some v) :: rest => selfEqOK v && propsOK rest

end

/-- Independent n-fold iteration of a body-evaluation step, used to state that
a `for` loop runs its body an exact number of times. -/
def iterBody (step : Option Value → Store → Res) :
    Nat → Option Value → Store → Res
  | 0, last, s => Res.ok last s
  | n + 1, last, s =>
    match step last s with
    | Res.ok v s1 => iterBody step n v s1
    | other => other

/-- The counting statement `c = c + 1`. -/
def incrStmt : Stmt :=
  Stmt.assign (Stmt.ident "c")
    (Stmt.binary (Stmt.ident "c") (Stmt.numberLit 1) "+")

/-- The source program `var c = 0  for (q) { c = c + 1 }  c`, whose final
value observes how many times the loop body ran. -/
def counterProg (q : ℚ) : Stmt :=
  Stmt.program
    [Stmt.varDecl false "c" (some (Stmt.numberLit 0)),
     Stmt.forS (Stmt.numberLit q) [incrStmt],
     Stmt.ident "c"]

/-- The store reached by the counting program once `c` holds `m`: the global
frame extended with the variable `c`. -/
def counterStore (m : ℚ) : Store :=
  [{ parent := none
     vars := [("nada", some Value.nada),
              ("true", some (Value.bool true)),
              ("false", some (Value.bool false)),
              ("print", some (Value.native "print")),
              ("c", some (Value.number m))]
     constants := ["nada", "true", "false", "print"] }]

/-! ## General lemmas about the evaluator -/

/-- Sequential statement evaluation splits over list append. -/
theorem seqEval_append (ev : EvalFn) (envId : Nat) (xs ys : List Stmt)
    (last : Option Value) (s : Store) :
    seqEval ev envId (xs ++ ys) last s =
      match seqEval ev envId xs last s with
      | Res.ok v s1 => seqEval ev envId ys v s1
      | other => other := by
  induction xs generalizing last s with
  | nil => simp [seqEval]
  | cons x rest ih =>
    simp only [List.cons_append, seqEval]
    cases ev x envId s <;> simp [ih]

/-- The evaluator's `for` iteration loop is exactly the n-fold iteration of
one body pass. -/
theorem loopForTimes_eq_iterBody (ev : EvalFn) (envId : Nat)
    (body : List Stmt) (k : Nat) (last : Option Value) (s : Store) :
    loopForTimes ev envId body k last s =
      iterBody (fun l st => seqEval ev envId body l st) k last s := by
  induction k generalizing last s with
  | zero => rfl
  | succ n ih =>
    simp only [loopForTimes, iterBody]
    cases seqEval ev envId body last s <;> simp [ih]

/-! ## Lemmas about association lists and `deepEqual` -/

theorem assocGet_isSome_of_mem {l : List (String × Option Value)}
    {k : String} {ov : Option Value} (h : (k, ov) ∈ l) :
    (assocGet l k).isSome := by
  induction l with
  | nil => cases h
  | cons hd tl ih =>
    obtain ⟨k1, ov1⟩ := hd
    rcases List.mem_cons.mp h with heq | hmem
    · cases heq
      simp [assocGet]
    · by_cases hk : k1 = k
      · simp [assocGet, hk]
      · simpa [assocGet, hk] using ih hmem

/-- In a key-distinct association list, membership determines lookup. -/
theorem assocGet_of_keysNodup {props : List (String × Option Value)}
    (hnd : keysNodup props = true) {k : String} {ov : Option Value}
    (hm : (k, ov) ∈ props) : assocGet props k = some ov := by
  induction props with
  | nil => cases hm
  | cons hd tl ih =>
    obtain ⟨k1, ov1⟩ := hd
    simp only [keysNodup, Bool.and_eq_true, Bool.not_eq_true'] at hnd
    rcases List.mem_cons.mp hm with heq | hmem
    · cases heq
      simp [assocGet]
    · by_cases hk : k1 = k
      · subst hk
        have h2 := assocGet_isSome_of_mem hmem
        simp [hnd.1] at h2
      · simpa [assocGet, hk] using ih hnd.2 hmem

/-- Entries of a `propsOK` list carry `selfEqOK` values. -/
theorem propsOK_mem {l : List (String × Option Value)}
    (h : propsOK l = true) {k : String} {v : Value}
    (hm : (k, some v) ∈ l) : selfEqOK v = true := by
  induction l with
  | nil => cases hm
  | cons hd tl ih =>
    obtain ⟨k1, ov1⟩ := hd
    rcases List.mem_cons.mp hm with heq | hmem
    · cases heq
      simp only [propsOK, Bool.and_eq_true] at h
      exact h.1
    · cases ov1 with
      | none =>
        simp only [propsOK] at h
        exact ih h hmem
      | some w =>
        simp only [propsOK, Bool.and_eq_true] at h
        exact ih h.2 hmem

/-- Reflexivity of `deepEqual` on the tags it actually handles, by strong
induction on the size of the value (the object case recurses into the
property list). -/
theorem deepEqual_refl_aux :
    ∀ (n : Nat) (v : Value), sizeOf v ≤ n → selfEqOK v = true →
      deepEqual (some v) (some v) = true := by
  intro n
  induction n with
  | zero =>
    intro v hsz _
    exfalso
    cases v <;> simp at hsz
  | succ n ih =>
    intro v hsz hok
    cases v with
    | number q => simp [deepEqual]
    | bool b => simp [deepEqual]
    | nada => simp [deepEqual]
    | str s => simp [selfEqOK] at hok
    | native nm => simp [selfEqOK] at hok
    | user nm ps env bd => simp [selfEqOK] at hok
    | ret rv => simp [selfEqOK] at hok
    | object props nm =>
      simp only [selfEqOK, Bool.and_eq_true] at hok
      obtain ⟨hnd, hpok⟩ := hok
      have key : ∀ l : List (String × Option Value),
          (∀ e, e ∈ l → e ∈ props) → propsMatch l props = true := by
        intro l
        induction l with
        | nil => intro _; simp [propsMatch]
        | cons hd tl ihl =>
          intro hsub
          obtain ⟨k, ov⟩ := hd
          have hmem : (k, ov) ∈ props := hsub _ (List.mem_cons_self _ _)
          have hget := assocGet_of_keysNodup hnd hmem
          have hrest := ihl (fun e he => hsub e (List.mem_cons_of_mem _ he))
          cases ov with
          | none => simp [propsMatch, hget, deepEqual, hrest]
          | some w =>
            have hw : selfEqOK w = true := propsOK_mem hpok hmem
            have hsw : sizeOf w ≤ n := by
              have h1 := List.sizeOf_lt_of_mem hmem
              simp only [Prod.mk.sizeOf_spec, Option.some.sizeOf_spec] at h1
              simp only [Value.object.sizeOf_spec] at hsz
              omega
            simp [propsMatch, hget, ih w hsw hw, hrest]
      simp [deepEqual, key props (fun e he => he)]

/-! ## C1 — reflexivity of `deepEqual` -/

/-- C1 counterexample: `deepEqual` is not reflexive on `String` values — the
type switch has no `StringVal` case and falls through to `false`. -/
theorem deepEqual_string_not_reflexive :
    deepEqual (some (Value.str "abc")) (some (Value.str "abc")) = false := by
  simp [deepEqual]

/-- C1 (amended): `deepEqual(v, v)` holds for every value built from the
`Number`, `Bool`, `Nada` and `Object` variants (over map-shaped property
lists); on `String`, `NativeFunction` and `UserFunction` values `deepEqual`
returns `false` even on two structurally identical arguments. -/
theorem deepEqual_refl_characterization :
    (∀ v : Value, selfEqOK v = true → deepEqual (some v) (some v) = true)
    ∧ (∀ s : String, deepEqual (some (Value.str s)) (some (Value.str s)) = false)
    ∧ (∀ nm : String,
        deepEqual (some (Value.native nm)) (some (Value.native nm)) = false)
    ∧ (∀ (nm : String) (ps : List String) (env : Nat) (bd : List Stmt),
        deepEqual (some (Value.user nm ps env bd))
          (some (Value.user nm ps env bd)) = false) := by
  refine ⟨fun v h => deepEqual_refl_aux (sizeOf v) v le_rfl h, ?_, ?_, ?_⟩
  · intro s; simp [deepEqual]
  · intro nm; simp [deepEqual]
  · intro nm ps env bd; simp [deepEqual]

/-- C1 witness: the amended reflexivity applied to a concrete object value. -/
theorem deepEqual_refl_characterization_witness :
    selfEqOK (Value.object [("a", some (Value.number 1)),
      ("b", some Value.nada)] "") = true
    ∧ deepEqual
        (some (Value.object [("a", some (Value.number 1)),
          ("b", some Value.nada)] ""))
        (some (Value.object [("a", some (Value.number 1)),
          ("b", some Value.nada)] "")) = true :=
  ⟨by simp [selfEqOK, keysNodup, propsOK, assocGet],
   deepEqual_refl_characterization.1 _
     (by simp [selfEqOK, keysNodup, propsOK, assocGet])⟩

/-! ## C2 — whether `Evaluate` can return a `ReturnSignal` -/

/-- C2 counterexample: a program whose last top-level statement is a return
statement evaluates to a `ReturnSignal` value — `evalProgram` performs no
`ReturnValue` unwrapping. -/
theorem top_level_return_escapes :
    Evaluate 3 (Stmt.program [Stmt.returnS (Stmt.numberLit 5)]) 0 store0 =
      Res.ok (some (Value.ret (some (Value.number 5)))) store0 := rfl

/-- C2 (amended): evaluating a program either fails or returns a value of a
defined variant, but that variant can be `ReturnSignal`: whenever the trailing
top-level statement is a return statement whose operand evaluates to `v`, the
program's result is `ReturnSignal(v)`. -/
theorem program_trailing_return_yields_signal
    (g : Nat) (stmts : List Stmt) (e : Stmt) (envId : Nat) (s s1 s2 : Store)
    (w v : Option Value)
    (h1 : seqEval (fun n en st => Evaluate (g + 1) n en st) envId stmts none s
      = Res.ok w s1)
    (h2 : Evaluate g e envId s1 = Res.ok v s2) :
    Evaluate (g + 2) (Stmt.program (stmts ++ [Stmt.returnS e])) envId s =
      Res.ok (some (Value.ret v)) s2 := by
  have hx := seqEval_append (fun n en st => Evaluate (g + 1) n en st) envId
    stmts [Stmt.returnS e] none s
  calc Evaluate (g + 2) (Stmt.program (stmts ++ [Stmt.returnS e])) envId s
      = seqEval (fun n en st => Evaluate (g + 1) n en st) envId
          (stmts ++ [Stmt.returnS e]) none s := rfl
    _ = Res.ok (some (Value.ret v)) s2 := by
        rw [hx, h1]
        simp [seqEval, Evaluate, evalReturnStmt, h2]

/-- C2 witness: the amended statement applied to the one-statement program
`return 5`. -/
theorem program_trailing_return_yields_signal_witness :
    seqEval (fun n en st => Evaluate 2 n en st) 0 [] none store0
      = Res.ok none store0
    ∧ Evaluate 1 (Stmt.numberLit 5) 0 store0 =
        Res.ok (some (Value.number 5)) store0
    ∧ Evaluate 3 (Stmt.program [Stmt.returnS (Stmt.numberLit 5)]) 0 store0 =
        Res.ok (some (Value.ret (some (Value.number 5)))) store0 :=
  ⟨rfl, rfl,
   program_trailing_return_yields_signal 1 [] (Stmt.numberLit 5) 0 store0
     store0 store0 none (some (Value.number 5)) rfl rfl⟩

/-! ## C3 — order of evaluation in a call expression -/

/-- C3 counterexample: the arguments are evaluated before the callee.  Here
the callee would fail with "Unknown operator ?" and the sole argument fails
with "unknown logical operator: ??"; the call reports the argument's error,
so the callee's effect is not observed first (the claimed callee-first order
would report "Unknown operator ?"). -/
theorem call_argument_error_precedes_callee :
    Evaluate 10
        (Stmt.call [Stmt.logical (Stmt.numberLit 1) (Stmt.numberLit 1) "??"]
          (Stmt.binary (Stmt.numberLit 1) (Stmt.numberLit 1) "?")) 0 store0 =
      Res.err "unknown logical operator: ??" store0
    ∧ (("unknown logical operator: ??" == "Unknown operator ?") : Bool) = false :=
  ⟨rfl, by decide⟩

/-- C3 (amended): a `CallExpr` evaluates its argument list first, left to
right, and only then the callee: an argument failure aborts the call with the
argument's error no matter what the callee would do, and the callee is
evaluated in the store the arguments produced. -/
theorem call_args_evaluated_before_callee :
    (∀ (g : Nat) (args : List Stmt) (caller : Stmt) (envId : Nat)
        (s s1 : Store) (m : String),
      argsEval (fun n en st => Evaluate g n en st) envId args s =
        ArgsRes.err m s1 →
      Evaluate (g + 1) (Stmt.call args caller) envId s = Res.err m s1)
    ∧ (∀ (g : Nat) (args : List Stmt) (caller : Stmt) (envId : Nat)
        (s s1 s2 : Store) (vs : List (Option Value)) (m : String),
      argsEval (fun n en st => Evaluate g n en st) envId args s =
        ArgsRes.ok vs s1 →
      Evaluate g caller envId s1 = Res.err m s2 →
      Evaluate (g + 1) (Stmt.call args caller) envId s = Res.err m s2) := by
  constructor
  · intro g args caller envId s s1 m h
    calc Evaluate (g + 1) (Stmt.call args caller) envId s
        = evalCallExpr (fun n en st => Evaluate g n en st) envId args caller s :=
          rfl
      _ = Res.err m s1 := by rw [evalCallExpr, h]
  · intro g args caller envId s s1 s2 vs m h1 h2
    calc Evaluate (g + 1) (Stmt.call args caller) envId s
        = evalCallExpr (fun n en st => Evaluate g n en st) envId args caller s :=
          rfl
      _ = Res.err m s2 := by rw [evalCallExpr, h1]; simp [h2]

/-- C3 witness: both halves of the ordering statement applied to concrete
calls. -/
theorem call_args_evaluated_before_callee_witness :
    Evaluate 3
        (Stmt.call [Stmt.logical (Stmt.numberLit 1) (Stmt.numberLit 1) "!!"]
          (Stmt.numberLit 0)) 0 store0 =
      Res.err "unknown logical operator: !!" store0
    ∧ Evaluate 3
        (Stmt.call [Stmt.numberLit 4] (Stmt.binary (Stmt.numberLit 1)
          (Stmt.numberLit 1) "?")) 0 store0 =
      Res.err "Unknown operator ?" store0 :=
  ⟨call_args_evaluated_before_callee.1 2 _ _ 0 store0 store0 _ rfl,
   call_args_evaluated_before_callee.2 2 _ _ 0 store0 store0 store0 _ _ rfl rfl⟩

/-! ## C4 — a bare `return` -/

/-- C4: a `ReturnStmt` with an absent value (the parser's output for a bare
`return` before `}` or `EOF`) does not yield `ReturnSignal(Nada)`: the
evaluator hands the nil node straight to `Evaluate`, whose type switch falls
into the default error case; a function body ending in a bare `return`
therefore makes the whole call fail with that error. -/
theorem bare_return_errors :
    Evaluate 2 (Stmt.returnS Stmt.nilStmt) 0 store0 =
      Res.err "AST Node has not been added for interpretation: <nil>" store0
    ∧ Evaluate 10
        (Stmt.program [Stmt.funcDecl "f" [] [Stmt.returnS Stmt.nilStmt],
          Stmt.call [] (Stmt.ident "f")]) 0 store0 =
      Res.err "AST Node has not been added for interpretation: <nil>"
        [{ parent := none
           vars := [("nada", some Value.nada),
                    ("true", some (Value.bool true)),
                    ("false", some (Value.bool false)),
                    ("print", some (Value.native "print")),
                    ("f", some (Value.user "f" [] 0
                      [Stmt.returnS Stmt.nilStmt]))]
           constants := ["nada", "true", "false", "print", "f"] },
         { parent := some 0, vars := [], constants := [] }] :=
  ⟨rfl, rfl⟩

/-! ## C5 — the lexer's `||` handling -/

/-- C5: `lexOr` never emits `OR`: its final test compares the zero-initialised
`orType` field with the integer `2` instead of `orCount`, so every input —
including the two-character lexeme `||` — is classified `ILLEGAL`. -/
theorem lexOr_always_illegal :
    lexOr ['|', '|'] = ("||", Tok.ILLEGAL, [])
    ∧ (∀ input : List Char, (lexOr input).2.1 = Tok.ILLEGAL)
    ∧ ((Tok.ILLEGAL == Tok.OR) : Bool) = false
    ∧ lexAnd ['&', '&'] = ("&&", Tok.AND, []) := by
  refine ⟨by decide, fun input => rfl, by decide, by decide⟩

/-! ## C6 — division by zero -/

/-- C6: the `/` operator tests its right operand against zero and yields
`Number(0)` with no error in that case; in particular the program `1/0`
evaluates to `0`. -/
theorem division_by_zero_yields_zero :
    (∀ leftSide : ℚ, evalNumericBinaryExpr leftSide 0 "/" = NumRes.ok 0)
    ∧ (∀ (g : Nat) (left right : Stmt) (envId : Nat) (s s1 s2 : Store) (l : ℚ),
        Evaluate g left envId s = Res.ok (some (Value.number l)) s1 →
        Evaluate g right envId s1 = Res.ok (some (Value.number 0)) s2 →
        Evaluate (g + 1) (Stmt.binary left right "/") envId s =
          Res.ok (some (Value.number 0)) s2)
    ∧ Evaluate 3 (Stmt.program
        [Stmt.binary (Stmt.numberLit 1) (Stmt.numberLit 0) "/"]) 0 store0 =
      Res.ok (some (Value.number 0)) store0 := by
  refine ⟨fun leftSide => rfl, ?_, rfl⟩
  intro g left right envId s s1 s2 l h1 h2
  calc Evaluate (g + 1) (Stmt.binary left right "/") envId s
      = evalBinaryExpr (fun n en st => Evaluate g n en st) envId left right "/" s :=
        rfl
    _ = Res.ok (some (Value.number 0)) s2 := by
        rw [evalBinaryExpr, h1]
        simp [h2, evalNumericBinaryExpr]

/-- C6 witness: the binary-expression statement applied to the literals `1`
and `0`. -/
theorem division_by_zero_yields_zero_witness :
    Evaluate 2 (Stmt.binary (Stmt.numberLit 1) (Stmt.numberLit 0) "/") 0 store0
      = Res.ok (some (Value.number 0)) store0 :=
  division_by_zero_yields_zero.2.1 1 _ _ 0 store0 store0 store0 1 rfl rfl

/-! ## C8 — numeric unary `!` -/

/-- C8: numeric `!` compares the uninitialised local `result` (still holding
the zero value) instead of the operand, so it yields `Number(1)` for every
numeric operand. -/
theorem unary_not_ignores_operand :
    (∀ operant : ℚ, evalNumericUnaryExpr operant "!" = Value.number 1)
    ∧ (∀ (g : Nat) (operant : Stmt) (envId : Nat) (s s1 : Store) (q : ℚ),
        Evaluate g operant envId s = Res.ok (some (Value.number q)) s1 →
        Evaluate (g + 1) (Stmt.unary operant "!") envId s =
          Res.ok (some (Value.number 1)) s1) := by
  refine ⟨fun operant => rfl, ?_⟩
  intro g operant envId s s1 q h
  calc Evaluate (g + 1) (Stmt.unary operant "!") envId s
      = evalUnaryExpr (fun n en st => Evaluate g n en st) envId operant "!" s :=
        rfl
    _ = Res.ok (some (Value.number 1)) s1 := by rw [evalUnaryExpr, h]; rfl

/-- C8 witness: `!` applied to the literal `42` yields `1`. -/
theorem unary_not_ignores_operand_witness :
    Evaluate 2 (Stmt.unary (Stmt.numberLit 42) "!") 0 store0 =
      Res.ok (some (Value.number 1)) store0 :=
  unary_not_ignores_operand.2 1 _ 0 store0 store0 42 rfl

/-! ## C9 — value of a program -/

/-- C9 counterexample: an empty program body evaluates to the nil interface
(`lastEvaluated` is never assigned), which is not the value `Nada`. -/
theorem empty_program_not_nada :
    Evaluate 1 (Stmt.program []) 0 store0 = Res.ok none store0
    ∧ (none : Option Value).isSome = false
    ∧ (some Value.nada).isSome = true :=
  ⟨rfl, rfl, rfl⟩

/-- C9 (amended): evaluating a program with an empty body returns the absent
(nil) value rather than `Nada`, and for a non-empty body the program's value
is the value of its last statement. -/
theorem program_value_empty_nil_else_last :
    (∀ (fuel envId : Nat) (s : Store),
      Evaluate (fuel + 1) (Stmt.program []) envId s = Res.ok none s)
    ∧ (∀ (g : Nat) (stmts : List Stmt) (lastStmt : Stmt) (envId : Nat)
        (s s1 s2 : Store) (w v : Option Value),
      seqEval (fun n en st => Evaluate (g + 1) n en st) envId stmts none s =
        Res.ok w s1 →
      Evaluate (g + 1) lastStmt envId s1 = Res.ok v s2 →
      Evaluate (g + 2) (Stmt.program (stmts ++ [lastStmt])) envId s =
        Res.ok v s2) := by
  refine ⟨fun fuel envId s => rfl, ?_⟩
  intro g stmts lastStmt envId s s1 s2 w v h1 h2
  have hx := seqEval_append (fun n en st => Evaluate (g + 1) n en st) envId
    stmts [lastStmt] none s
  calc Evaluate (g + 2) (Stmt.program (stmts ++ [lastStmt])) envId s
      = seqEval (fun n en st => Evaluate (g + 1) n en st) envId
          (stmts ++ [lastStmt]) none s := rfl
    _ = Res.ok v s2 := by rw [hx, h1]; simp [seqEval, h2]

/-- C9 witness: the last-statement clause applied to the program `7`. -/
theorem program_value_empty_nil_else_last_witness :
    Evaluate 2 (Stmt.program [Stmt.numberLit 7]) 0 store0 =
      Res.ok (some (Value.number 7)) store0 :=
  program_value_empty_nil_else_last.2 0 [] (Stmt.numberLit 7) 0 store0 store0
    store0 none (some (Value.number 7)) rfl rfl

/-! ## C7 — iteration count of a `for` statement -/

/-- One pass of the counting body `c = c + 1` increments the stored counter. -/
theorem counter_incr (m : ℚ) (last : Option Value) :
    seqEval (fun n en st => Evaluate 5 n en st) 0 [incrStmt] last
        (counterStore m) =
      Res.ok (some (Value.number (m + 1))) (counterStore (m + 1)) := rfl

/-- Running the counting body `k` times adds `k` to the stored counter. -/
theorem counter_loop (k : Nat) :
    ∀ (m : ℚ) (last : Option Value), ∃ w,
      loopForTimes (fun n en st => Evaluate 5 n en st) 0 [incrStmt] k last
          (counterStore m) =
        Res.ok w (counterStore (m + (k : ℚ))) := by
  induction k with
  | zero =>
    intro m last
    refine ⟨last, ?_⟩
    norm_num [loopForTimes]
  | succ n ih =>
    intro m last
    obtain ⟨w, hw⟩ := ih (m + 1) (some (Value.number (m + 1)))
    refine ⟨w, ?_⟩
    have hcast : (m + 1) + (n : ℚ) = m + ((n + 1 : Nat) : ℚ) := by
      push_cast
      ring
    rw [hcast] at hw
    simp only [loopForTimes, counter_incr m last]
    exact hw

/-- C7: a `for` statement whose count expression evaluates to `Number(q)` runs
its body exactly `max(0, trunc(q))` times in the enclosing scope (the loop is
the plain n-fold iteration of one body pass over the same environment), a
non-`Number` count is a runtime error, and the counting program
`var c = 0  for (q) { c = c + 1 }  c` evaluates to exactly that count. -/
theorem forStmt_runs_truncated_count :
    (∀ (g : Nat) (cond : Stmt) (body : List Stmt) (envId : Nat)
        (s s1 : Store) (q : ℚ),
      Evaluate g cond envId s = Res.ok (some (Value.number q)) s1 →
      Evaluate (g + 1) (Stmt.forS cond body) envId s =
        iterBody
          (fun l st => seqEval (fun n en st2 => Evaluate g n en st2) envId
            body l st)
          (max 0 (trunc q)).toNat none s1)
    ∧ (∀ (g : Nat) (cond : Stmt) (body : List Stmt) (envId : Nat)
        (s s1 : Store) (v : Option Value),
      Evaluate g cond envId s = Res.ok v s1 →
      (∀ q : ℚ, v ≠ some (Value.number q)) →
      Evaluate (g + 1) (Stmt.forS cond body) envId s =
        Res.err "For loop count must evaluate to a number" s1)
    ∧ (∀ q : ℚ,
      Evaluate 7 (counterProg q) 0 store0 =
        Res.ok (some (Value.number (((trunc q).toNat : Nat) : ℚ)))
          (counterStore (((trunc q).toNat : Nat) : ℚ))) := by
  refine ⟨?_, ?_, ?_⟩
  · intro g cond body envId s s1 q h
    have hstep : Evaluate (g + 1) (Stmt.forS cond body) envId s =
        evalForStmt (fun n en st => Evaluate g n en st) envId cond body s := rfl
    rw [hstep]
    simp only [evalForStmt, h]
    rw [loopForTimes_eq_iterBody]
    congr 1
    omega
  · intro g cond body envId s s1 v h hnv
    have hstep : Evaluate (g + 1) (Stmt.forS cond body) envId s =
        evalForStmt (fun n en st => Evaluate g n en st) envId cond body s := rfl
    rw [hstep]
    simp only [evalForStmt, h]
  · intro q
    obtain ⟨w, hw⟩ := counter_loop (trunc q).toNat 0 none
    have hfor : Evaluate 6 (Stmt.forS (Stmt.numberLit q) [incrStmt]) 0
        (counterStore 0) =
        Res.ok w (counterStore (0 + (((trunc q).toNat : Nat) : ℚ))) := by
      have hred : Evaluate 6 (Stmt.forS (Stmt.numberLit q) [incrStmt]) 0
          (counterStore 0) =
          loopForTimes (fun n en st => Evaluate 5 n en st) 0 [incrStmt]
            (trunc q).toNat none (counterStore 0) := rfl
      rw [hred]
      exact hw
    have h1 : Evaluate 6 (Stmt.varDecl false "c" (some (Stmt.numberLit 0))) 0
        store0 = Res.ok (some (Value.number 0)) (counterStore 0) := rfl
    have h3 : ∀ x : ℚ, Evaluate 6 (Stmt.ident "c") 0 (counterStore x) =
        Res.ok (some (Value.number x)) (counterStore x) := fun x => rfl
    have hstart : Evaluate 7 (counterProg q) 0 store0 =
        seqEval (fun n en st => Evaluate 6 n en st) 0
          [Stmt.varDecl false "c" (some (Stmt.numberLit 0)),
           Stmt.forS (Stmt.numberLit q) [incrStmt],
           Stmt.ident "c"] none store0 := rfl
    rw [hstart]
    simp only [seqEval, h1, hfor, h3]
    norm_num

/-- C7 witness: the count clause applied to the literal count `3` and the
error clause applied to a string count. -/
theorem forStmt_runs_truncated_count_witness :
    Evaluate 1 (Stmt.numberLit 3) 0 store0 =
      Res.ok (some (Value.number 3)) store0
    ∧ Evaluate 2 (Stmt.forS (Stmt.numberLit 3) [Stmt.numberLit 9]) 0 store0 =
        iterBody
          (fun l st => seqEval (fun n en st2 => Evaluate 1 n en st2) 0
            [Stmt.numberLit 9] l st)
          (max 0 (trunc 3)).toNat none store0
    ∧ Evaluate 2 (Stmt.forS (Stmt.stringLit "x") []) 0 store0 =
        Res.err "For loop count must evaluate to a number" store0 :=
  ⟨rfl,
   forStmt_runs_truncated_count.1 1 _ _ 0 store0 store0 3 rfl,
   forStmt_runs_truncated_count.2.1 1 _ _ 0 store0 store0
     (some (Value.str "x")) rfl (by intro q; simp)⟩

/-! ## C10 — the `%` operator with a zero divisor -/

/-- C10: the `%` branch truncates both operands and computes the host integer
remainder with no zero test of its own; when the right operand truncates to
`0` the evaluation neither produces a value nor a structured interpreter
error — it hits the Go runtime's integer-divide-by-zero panic. -/
theorem mod_zero_divisor_panics :
    (∀ leftSide rightSide : ℚ, trunc rightSide = 0 →
      evalNumericBinaryExpr leftSide rightSide "%" =
        NumRes.panicked "runtime error: integer divide by zero")
    ∧ (∀ (g : Nat) (left right : Stmt) (envId : Nat) (s s1 s2 : Store)
        (l r : ℚ),
      Evaluate g left envId s = Res.ok (some (Value.number l)) s1 →
      Evaluate g right envId s1 = Res.ok (some (Value.number r)) s2 →
      trunc r = 0 →
      Evaluate (g + 1) (Stmt.binary left right "%") envId s =
        Res.panicked "runtime error: integer divide by zero") := by
  constructor
  · intro leftSide rightSide h
    simp [evalNumericBinaryExpr, h]
  · intro g left right envId s s1 s2 l r h1 h2 h3
    calc Evaluate (g + 1) (Stmt.binary left right "%") envId s
        = evalBinaryExpr (fun n en st => Evaluate g n en st) envId left right
            "%" s := rfl
      _ = Res.panicked "runtime error: integer divide by zero" := by
          rw [evalBinaryExpr, h1]
          simp [h2, evalNumericBinaryExpr, h3]

/-- C10 witness: `1 % 0` panics; the fractional divisor `1 % 0.5`... the
zero-truncating divisor case applied concretely. -/
theorem mod_zero_divisor_panics_witness :
    evalNumericBinaryExpr 1 0 "%" =
      NumRes.panicked "runtime error: integer divide by zero"
    ∧ Evaluate 2 (Stmt.binary (Stmt.numberLit 1) (Stmt.numberLit 0) "%") 0
        store0 = Res.panicked "runtime error: integer divide by zero" :=
  ⟨mod_zero_divisor_panics.1 1 0 rfl,
   mod_zero_divisor_panics.2 1 _ _ 0 store0 store0 store0 1 0 rfl rfl rfl⟩

end A0
